import Mathlib

/-
Formal model of the product-data pipeline of `naver-dashboard-v2`
(`src/logic_v4.py`): column normalization (`map_columns`), size parsing
(`parse_size_from_title`), the match classifier (`filter_search_results`),
the two price-outlier detectors (`detect_outliers_iqr`,
`detect_outliers_quantile`) and the seller summary
(`build_seller_outlier_summary`).

Modelling conventions:
- a pandas `DataFrame` is a list of column labels plus rows of cells
  (`Cell` = null / string / integer); pandas permits duplicate labels
  after `rename`, so `cols` is a plain list;
- pandas/NumPy float arithmetic is modelled with exact rationals `ℚ`
  (every constant appearing in the verified claims is exactly
  representable);
- Python string methods (`lower`, `strip`, substring test) are
  implemented by structural recursion on `List Char` so that all
  definitions evaluate inside the kernel; `Char.toLower` agrees with
  Python `str.lower` on ASCII, and both are the identity on Hangul;
- a missing (NaN) string rendered by Python `str(...)` becomes the
  literal `"nan"`;
- `re.search` of the alternation patterns in `EXCLUDE_PATTERNS` over an
  already-lowercased string is substring search of the listed literal
  alternatives (`[xX]2` collapses to the literal `x2` because the
  subject string contains no upper-case characters).
-/

/-! ### String helpers (Python `str.lower` / `str.strip` / substring) -/

def lowerStr (s : String) : String := ⟨s.data.map Char.toLower⟩

def stripChars (cs : List Char) : List Char :=
  ((cs.dropWhile Char.isWhitespace).reverse.dropWhile Char.isWhitespace).reverse

def stripStr (s : String) : String := ⟨stripChars s.data⟩

/-- Python `col.lower().strip()`, used by `map_columns` for column matching. -/
def normName (s : String) : String := stripStr (lowerStr s)

def occursAt : List Char → List Char → Bool
  | [], _ => true
  | _ :: _, [] => false
  | a :: as, b :: bs => a = b && occursAt as bs

def occursIn (pat : List Char) : List Char → Bool
  | [] => pat.isEmpty
  | c :: rest => occursAt pat (c :: rest) || occursIn pat rest

/-- Python `pat in hay` substring test. -/
def strContains (hay pat : String) : Bool := occursIn pat.data hay.data

/-! ### Cells and data frames -/

inductive Cell where
  | null : Cell
  | str : String → Cell
  | int : Int → Cell
deriving DecidableEq, Repr

structure DF where
  cols : List String
  rows : List (List Cell)
deriving DecidableEq, Repr

/-- Well-formed frame: every row has one cell per column label. -/
def WF (df : DF) : Prop := ∀ r ∈ df.rows, r.length = df.cols.length

instance (df : DF) : Decidable (WF df) := by
  unfold WF; infer_instance

/-- The cells of all columns labelled `name`, in label order
(pandas `df[name]`; a singleton for a unique label). -/
def rowCells (pairs : List (String × Cell)) (name : String) : List Cell :=
  pairs.filterMap (fun p => if p.1 = name then some p.2 else none)

def colCells (cols : List String) (row : List Cell) (name : String) : List Cell :=
  rowCells (cols.zip row) name

/-! ### `map_columns` (logic_v4.py lines 20-113) -/

/-- The synonym table `column_mapping`, in Python dict insertion order. -/
def column_mapping : List (String × String) :=
  [("title", "product_name"), ("product_title", "product_name"),
   ("상품명", "product_name"), ("제품명", "product_name"),
   ("image", "image_url"), ("img_url", "image_url"),
   ("thumbnail", "image_url"), ("이미지", "image_url"),
   ("lprice", "price"), ("hprice", "price"),
   ("가격", "price"), ("판매가", "price"),
   ("쇼핑몰명", "mall_name"), ("판매처", "mall_name"),
   ("shop_name", "mall_name"), ("store_name", "mall_name"),
   ("판매자", "seller"), ("seller_name", "seller"),
   ("검색어", "query"), ("keyword", "query"),
   ("rank", "page_rank"), ("순위", "page_rank")]

def standard_columns : List String :=
  ["query", "product_id", "page_rank", "product_name", "brand", "maker",
   "price", "category1", "category2", "category3", "link", "image_url",
   "seller", "mall_name"]

/-- `existing_cols_lower[key]`: the dict `{col.lower().strip(): col}` built
once from the original columns; a later duplicate key overwrites an
earlier one, hence `getLast?`. -/
def existingColsLower (origCols : List String) (key : String) : Option String :=
  (origCols.filter (fun c => normName c = key)).getLast?

/-- pandas `df.rename(columns={old: tgt})`: every column labelled `old` is
relabelled `tgt`; a missing label is silently ignored. -/
def renameCol (old tgt : String) (cols : List String) : List String :=
  cols.map (fun c => if c = old then tgt else c)

/-- One iteration of the synonym-mapping loop: look the source up in the
stale `existing_cols_lower` dict, skip if the target already exists. -/
def mapStep (origCols cols : List String) (src tgt : String) : List String :=
  match existingColsLower origCols (lowerStr src) with
  | some orig => if cols.contains tgt then cols else renameCol orig tgt cols
  | none => cols

def applyMapping (origCols : List String) : List String :=
  column_mapping.foldl (fun cols p => mapStep origCols cols p.1 p.2) origCols

/-- One iteration of the case-normalization loop: rename `col` to the first
standard column whose lowercase form matches `col.lower().strip()`. -/
def caseStep (cols : List String) (col : String) : List String :=
  match standard_columns.find? (fun std => normName col = lowerStr std && col ≠ std) with
  | some std => renameCol col std cols
  | none => cols

/-- The loop `for col in df.columns` iterates over a snapshot of the labels
taken after the synonym mapping, while the renames accumulate. -/
def applyStdCase (cols1 : List String) : List String := cols1.foldl caseStep cols1

/-- The input columns after synonym mapping and case normalization. -/
def normalizedCols (cols : List String) : List String :=
  applyStdCase (applyMapping cols)

def digitsToNat (cs : List Char) : Nat :=
  cs.foldl (fun acc c => 10 * acc + (c.toNat - 48)) 0

/-- Numeric-literal parsing of `pd.to_numeric(..., errors="coerce")` followed
by `astype(int)`, for the string forms the verified claims exercise:
optional surrounding whitespace, optional sign, decimal integer with
optional fractional part.  NumPy `astype(int)` truncates toward zero, and
truncating `±(ip.fp)` toward zero yields `±ip`, so the fractional digits
are parsed and discarded.  Any other string coerces to `none` (NaN). -/
def parseNumTrunc (s : String) : Option Int :=
  let cs := stripChars s.data
  let signAndRest : Int × List Char :=
    match cs with
    | '-' :: t => (-1, t)
    | '+' :: t => (1, t)
    | _ => (1, cs)
  let sgn := signAndRest.1
  let rest := signAndRest.2
  let ip := rest.takeWhile Char.isDigit
  let rest2 := rest.dropWhile Char.isDigit
  match rest2 with
  | [] => if ip.isEmpty then none else some (sgn * digitsToNat ip)
  | '.' :: t =>
    let fp := t.takeWhile Char.isDigit
    let rest3 := t.dropWhile Char.isDigit
    if rest3.isEmpty && !(ip.isEmpty && fp.isEmpty) then
      some (sgn * digitsToNat ip)
    else none
  | _ => none

/-- `pd.to_numeric(x, errors="coerce").fillna(0).astype(int)` on one cell. -/
def toNumericInt : Cell → Int
  | Cell.null => 0
  | Cell.int n => n
  | Cell.str s =>
    match parseNumTrunc s with
    | some n => n
    | none => 0

/-- The `price` assignment `df["price"] = pd.to_numeric(df["price"], ...)`:
with a unique `price` label (guarded in `map_columns`) it replaces exactly
the cells at the positions labelled `price`. -/
def coerceRow (cols : List String) (r : List Cell) : List Cell :=
  (cols.zip r).map (fun p => if p.1 = "price" then Cell.int (toNumericInt p.2) else p.2)

/-- `map_columns` (logic_v4.py lines 20-113).  Returns `Except.error` in the
one situation in which the Python function raises: when the renames leave
more than one column labelled `price`, `df["price"]` selects a two-column
`DataFrame` and `pd.to_numeric` raises `TypeError`. -/
def map_columns (df : DF) : Except String DF :=
  let c2 := normalizedCols df.cols
  let missing := standard_columns.filter (fun s => !(c2.contains s))
  let cols3 := c2 ++ missing
  let rows3 := df.rows.map (fun r => r ++ missing.map (fun _ => Cell.null))
  if cols3.count "price" = 1 then
    Except.ok ⟨cols3, rows3.map (fun r => coerceRow cols3 r)⟩
  else
    Except.error "pd.to_numeric(DataFrame) raises TypeError"

/-! ### `parse_size_from_title` (logic_v4.py lines 163-191)

The regex `(\d+)\s*매(?:입)?` under `re.search`: the leftmost match starts
at a maximal digit run that is followed by optional whitespace and the
glyph 매 (a shorter suffix of a failed run cannot match either, because
after a shorter `\d+` the next character is a digit, which is neither
whitespace nor 매 — so a failed run is skipped whole). -/

def sizeScan : Bool → List Char → Option Nat
  | _, [] => none
  | inRun, c :: rest =>
    if c.isDigit then
      if inRun then sizeScan true rest
      else if ((rest.dropWhile Char.isDigit).dropWhile Char.isWhitespace).head? = some '매' then
        some (digitsToNat (c :: rest.takeWhile Char.isDigit))
      else sizeScan true rest
    else sizeScan false rest

/-- `parse_size_from_title` with the guard
`if pd.isna(title) or not title: return None` (the empty string is falsy). -/
def parse_size_from_title : Option String → Option Nat
  | none => none
  | some t => if t = "" then none else sizeScan false t.data

/-! ### `filter_search_results` (logic_v4.py lines 213-334) -/

/-- The fields of a record that the classifier reads.  `none` models a
missing (NaN) value. -/
structure PRow where
  product_name : Option String
  brand : Option String
deriving DecidableEq, Repr

/-- Python `str(x)` on a possibly missing value: `str(nan) = "nan"`
(neither `"nan"` nor `"none"` occurs in any vocabulary below). -/
def renderStr : Option String → String
  | none => "nan"
  | some s => s

/-- `EXCLUDE_PATTERNS["BUNDLE_FREE_GIFT"]` as its list of literal
alternatives. -/
def BUNDLE_TERMS : List String :=
  ["세트", "2종", "3종", "기획", "패키징", "한정", "구성", "bundle", "패키지",
   "증정", "사은품", "쇼핑백", "스타벅스", "상품권", "쿠폰", "구매시"]

/-- `EXCLUDE_PATTERNS["MULTIPACK"]` (`[xX]2` is the literal `x2` on a
lowercased subject). -/
def MULTIPACK_TERMS : List String :=
  ["1+1", "2개", "3개", "4개", "x2", "2팩", "묶음", "더블", "듀오", "트리오"]

/-- `EXCLUDE_PATTERNS["REFILL_SAMPLE"]`. -/
def REFILL_SAMPLE_TERMS : List String :=
  ["리필", "sample", "샘플", "테스터"]

/-- `re.search` of an alternation of literals: some alternative is a
substring. -/
def matchesAny (terms : List String) (name : String) : Bool :=
  terms.any (fun t => strContains name t)

/-- `check_include_condition` (lines 260-272). -/
def check_include_condition (r : PRow) : Bool :=
  let brand := lowerStr (renderStr r.brand)
  if brand = "캄프" || brand = "calmf" then true
  else
    let pn := lowerStr (renderStr r.product_name)
    strContains pn "캄프" && (strContains pn "카밍패드" || strContains pn "카밍 패드")

/-- `check_exclude_patterns` (lines 279-296): the three vocabularies in
dict insertion order, then the literal `+`. -/
def check_exclude_patterns : Option String → String
  | none => ""
  | some s =>
    let nl := lowerStr s
    if matchesAny BUNDLE_TERMS nl then "BUNDLE_FREE_GIFT"
    else if matchesAny MULTIPACK_TERMS nl then "MULTIPACK"
    else if matchesAny REFILL_SAMPLE_TERMS nl then "REFILL_SAMPLE"
    else if strContains nl "+" then "OTHER_PRODUCT_COMBO"
    else ""

/-- The reason a record carries after steps 1-2 of the classifier (the
inclusion gate, then — only for gate passers — the exclusion patterns). -/
def initial_reason (r : PRow) : String :=
  if check_include_condition r then check_exclude_patterns r.product_name
  else "NOT_MATCHING_PRODUCT"

/-- pandas `Series.mode().iloc[0]`: `mode()` lists the values of maximal
multiplicity in ascending order, so `.iloc[0]` is the smallest of them;
`none` on an empty series. -/
def modeSmallest (l : List Nat) : Option Nat :=
  (l.filter (fun a => l.all (fun b => decide (l.count b ≤ l.count a)))).min?

/-- The reason after steps 4-5 (non-standard-size marking, then the
variant override clearing `NON_STANDARD_SIZE` when requested). -/
def final_reason (mode : Option Nat) (include_variants : Bool) (r : PRow) : String :=
  let r0 := initial_reason r
  if r0 ≠ "" then r0
  else
    match mode with
    | none => ""
    | some m =>
      if parse_size_from_title r.product_name = some m then ""
      else if include_variants then "" else "NON_STANDARD_SIZE"

/-- `ClassifiedRecord`: the record plus its parsed `size_count` and its
`excluded_reason` (empty string = kept). -/
structure CRow where
  row : PRow
  size_count : Option Nat
  excluded_reason : String
deriving DecidableEq, Repr

structure FilterOut where
  kept : List CRow
  excluded : List CRow
  mode_size : Option Nat
deriving DecidableEq, Repr

/-- The records provisionally kept after steps 1-2. -/
def provisional_kept (rows : List PRow) : List PRow :=
  rows.filter (fun r => initial_reason r = "")

/-- `current_kept["size_count"].dropna()`. -/
def kept_sizes (rows : List PRow) : List Nat :=
  (provisional_kept rows).filterMap (fun r => parse_size_from_title r.product_name)

/-- `filter_search_results` (lines 221-334).  The `query` argument is
accepted for reference only and never read, exactly as in the source. -/
def filter_search_results (rows : List PRow) (query : String)
    (include_variants : Bool) : FilterOut :=
  let mode := modeSmallest (kept_sizes rows)
  ⟨rows.filterMap (fun r =>
      if final_reason mode include_variants r = "" then
        some ⟨r, parse_size_from_title r.product_name, ""⟩
      else none),
   rows.filterMap (fun r =>
      let fr := final_reason mode include_variants r
      if fr = "" then none else some ⟨r, parse_size_from_title r.product_name, fr⟩),
   mode⟩

/-- The ordered rule list of §4.4 of the specification, written from the
wording of the spec (priority chain BUNDLE_FREE_GIFT, MULTIPACK,
REFILL_SAMPLE, then OTHER_PRODUCT_COMBO on the literal `+`): the claim C4
compares `check_exclude_patterns` against the first applicable rule. -/
def exclusionRules : List (String × (String → Bool)) :=
  [("BUNDLE_FREE_GIFT", fun n => matchesAny BUNDLE_TERMS n),
   ("MULTIPACK", fun n => matchesAny MULTIPACK_TERMS n),
   ("REFILL_SAMPLE", fun n => matchesAny REFILL_SAMPLE_TERMS n),
   ("OTHER_PRODUCT_COMBO", fun n => strContains n "+")]

def firstApplicableRule : Option String → String
  | none => ""
  | some s =>
    match exclusionRules.find? (fun rule => rule.2 (lowerStr s)) with
    | some rule => rule.1
    | none => ""

/-! ### Quantiles (pandas `Series.quantile`, default linear interpolation) -/

def sortAsc (l : List ℚ) : List ℚ := List.insertionSort (· ≤ ·) l

/-- NumPy linear interpolation at virtual position `p` of the sorted
values: with `i = ⌊p⌋`, the value `s[i] + (p - i) * (s[i+1] - s[i])`,
the upper index clamped to the last element (only relevant when the
fraction is zero). -/
def interpolate (s : List ℚ) (p : ℚ) : ℚ :=
  let i : ℕ := (⌊p⌋).toNat
  let lo := s.getD i 0
  let hi := s.getD (min (i + 1) (s.length - 1)) 0
  lo + (p - ⌊p⌋) * (hi - lo)

/-- `Series.quantile(q)`: linear interpolation at position `q * (n - 1)`
of the ascending values (`0` on an empty series, which the callers below
guard against). -/
def quantileLinear (l : List ℚ) (q : ℚ) : ℚ :=
  if l.isEmpty then 0 else interpolate (sortAsc l) (q * ((l.length : ℚ) - 1))

/-! ### `detect_outliers_iqr` (logic_v4.py lines 341-474) -/

structure IqrStat where
  Q1 : ℚ
  Q3 : ℚ
  IQR : ℚ
  lower : ℚ
  upper : ℚ
  median : ℚ
deriving DecidableEq, Repr

/-- `compute_stats` (lines 394-409). -/
def compute_stats (prices : List ℚ) : IqrStat :=
  let q1 := quantileLinear prices (1/4)
  let q3 := quantileLinear prices (3/4)
  let iqr := q3 - q1
  ⟨q1, q3, iqr, q1 - 3/2 * iqr, q3 + 3/2 * iqr, quantileLinear prices (1/2)⟩

/-- The fields of a record that the outlier detectors and the seller
summary read.  `gkey` is the tuple of the row values of the (valid)
grouping columns, collapsed to a single key as in §9 of the spec. -/
structure ORow where
  gkey : Option String
  price : Int
  seller : Option String
  mall_name : Option String
deriving DecidableEq, Repr

/-- `df = df[df["price"] > 0]` (line 382). -/
def positiveRows (rows : List ORow) : List ORow :=
  rows.filter (fun r => decide (0 < r.price))

/-- The price population a row's statistics are computed over: its group
when grouping columns are valid, the whole population otherwise. -/
def groupPrices (grouped : Bool) (pos : List ORow) (k : Option String) : List ℚ :=
  if grouped then (pos.filter (fun r => decide (r.gkey = k))).map (fun r => (r.price : ℚ))
  else pos.map (fun r => (r.price : ℚ))

def statFor (grouped : Bool) (pos : List ORow) (k : Option String) : IqrStat :=
  compute_stats (groupPrices grouped pos k)

/-- `OutlierAnnotatedRecord`: row plus `deviation_pct` and `outlier_flag`
(the temporary `_lower/_upper/_median` columns are dropped, line 458). -/
structure AnnRow where
  row : ORow
  deviation_pct : ℚ
  outlier_flag : Bool
deriving DecidableEq, Repr

/-- One row of the annotation step (lines 430-455): deviation from the
group median (0 when the median is 0), IQR flag, auxiliary-rule union. -/
def annotateIqr (grouped use_aux : Bool) (aux_pct : ℚ) (pos : List ORow)
    (r : ORow) : AnnRow :=
  let st := statFor grouped pos r.gkey
  let dev := if st.median = 0 then 0 else ((r.price : ℚ) - st.median) / st.median * 100
  let flag := (decide ((r.price : ℚ) < st.lower) || decide (st.upper < (r.price : ℚ)))
    || (use_aux && decide (aux_pct ≤ |dev|))
  ⟨r, dev, flag⟩

structure StatRow where
  key : Option (Option String)
  stat : IqrStat
  outlier_count : Nat
deriving DecidableEq, Repr

structure IqrOut where
  before : List AnnRow
  inliers : List AnnRow
  outliers : List AnnRow
  stats : List StatRow
deriving DecidableEq, Repr

/-- `detect_outliers_iqr` (lines 341-474).  `grouped` stands for
`valid_group_cols` being non-empty.  The verified claims do not depend on
the order of the `stats` rows, so group keys are listed in first-occurrence
order (pandas `groupby(sort=True)` sorts them). -/
def detect_outliers_iqr (rows : List ORow) (grouped use_aux : Bool)
    (aux_pct : ℚ) : IqrOut :=
  let pos := positiveRows rows
  if pos.isEmpty then ⟨[], [], [], []⟩
  else
    let before := pos.map (annotateIqr grouped use_aux aux_pct pos)
    let stats : List StatRow :=
      if grouped then
        ((pos.map (fun r => r.gkey)).dedup).map (fun k =>
          ⟨some k, statFor true pos k,
           (before.filter (fun a => decide (a.row.gkey = k) && a.outlier_flag)).length⟩)
      else
        [⟨none, statFor false pos none,
          (before.filter (fun a => a.outlier_flag)).length⟩]
    ⟨before, before.filter (fun a => !a.outlier_flag),
     before.filter (fun a => a.outlier_flag), stats⟩

/-! ### `detect_outliers_quantile` (logic_v4.py lines 484-614) -/

structure QStat where
  Q1 : ℚ
  upper_q : ℚ
  lower : ℚ
  upper : ℚ
  median : ℚ
deriving DecidableEq, Repr

/-- The quantile-cap `compute_stats` (lines 542-558): lower is Q1 itself,
upper is the configurable upper quantile. -/
def compute_stats_quantile (upper_quantile : ℚ) (prices : List ℚ) : QStat :=
  let q1 := quantileLinear prices (1/4)
  let uq := quantileLinear prices upper_quantile
  ⟨q1, uq, q1, uq, quantileLinear prices (1/2)⟩

structure QAnnRow where
  row : ORow
  deviation_pct : ℚ
  bound_lower : ℚ
  bound_upper : ℚ
  outlier_flag : Bool
deriving DecidableEq, Repr

structure QStatRow where
  stat : QStat
  outlier_count : Nat
deriving DecidableEq, Repr

structure QOut where
  before : List QAnnRow
  inliers : List QAnnRow
  outliers : List QAnnRow
  stats : List QStatRow
deriving DecidableEq, Repr

/-- `detect_outliers_quantile` (lines 484-614).  With a valid non-empty
`group_cols` the source still computes `compute_stats(df)` over the WHOLE
positive-price population: the grouped branch (lines 568-576) is textually
identical to the ungrouped one (the comment in the source says grouping is
bypassed because `query` is often null).  The `grouped` argument is
therefore accepted and ignored, exactly as `valid_group_cols` is. -/
def detect_outliers_quantile (rows : List ORow) (grouped : Bool)
    (upper_quantile : ℚ) (use_aux : Bool) (aux_pct : ℚ) : QOut :=
  let pos := positiveRows rows
  if pos.isEmpty then ⟨[], [], [], []⟩
  else
    let st := compute_stats_quantile upper_quantile (pos.map (fun r => (r.price : ℚ)))
    let annotate : ORow → QAnnRow := fun r =>
      let dev := if st.median = 0 then 0 else ((r.price : ℚ) - st.median) / st.median * 100
      let flag := (decide ((r.price : ℚ) < st.lower) || decide (st.upper < (r.price : ℚ)))
        || (use_aux && decide (aux_pct ≤ |dev|))
      ⟨r, dev, st.lower, st.upper, flag⟩
    let before := pos.map annotate
    let inliers0 := before.filter (fun a =>
      decide (st.lower ≤ (a.row.price : ℚ)) && decide ((a.row.price : ℚ) ≤ st.upper))
    let inliers := if use_aux then
        inliers0.filter (fun a => decide (|a.deviation_pct| < aux_pct))
      else inliers0
    ⟨before, inliers, before.filter (fun a => a.outlier_flag),
     [⟨st, (before.filter (fun a => a.outlier_flag)).length⟩]⟩

/-! ### `build_seller_outlier_summary` (logic_v4.py lines 622-674) -/

/-- NumPy `round` ties-to-even on the scaled value. -/
def roundHalfEven (x : ℚ) : ℤ :=
  let f := ⌊x⌋
  let r := x - f
  if r < 1/2 then f
  else if 1/2 < r then f + 1
  else if f % 2 = 0 then f else f + 1

/-- pandas `.round(2)`. -/
def round2 (x : ℚ) : ℚ := (roundHalfEven (x * 100) : ℚ) / 100

structure SellerSummaryRow where
  seller : String
  total_count : Nat
  outlier_count : Nat
  outlier_rate : ℚ
  mean_deviation_pct : ℚ
deriving DecidableEq, Repr

/-- The group-column choice (line 643): `seller` is used when some value
is non-null AND some value has a non-blank `str()` rendering — note that a
null renders as the non-blank string `"nan"`, exactly as in the source. -/
def sellerUsable (rows : List AnnRow) : Bool :=
  rows.any (fun a => a.row.seller.isSome) &&
  rows.any (fun a => stripStr (renderStr a.row.seller) ≠ "")

def summaryKey (useSeller : Bool) (a : AnnRow) : Option String :=
  if useSeller then a.row.seller else a.row.mall_name

/-- The blank filter (line 652): `notna()` and non-blank after strip. -/
def keyOk : Option String → Bool
  | none => false
  | some s => stripStr s ≠ ""

/-- The rows that survive the blank filter. -/
def usableRows (rows : List AnnRow) : List AnnRow :=
  rows.filter (fun a => keyOk (summaryKey (sellerUsable rows) a))

/-- The rows aggregated under key `k`. -/
def summaryGroup (usable : List AnnRow) (useSeller : Bool) (k : String) : List AnnRow :=
  usable.filter (fun a => decide (summaryKey useSeller a = some k))

/-- One aggregated row (lines 658-666): counts, outlier rate and mean
deviation, both rounded to 2 decimals. -/
def summaryRowFor (usable : List AnnRow) (useSeller : Bool) (k : String) :
    SellerSummaryRow :=
  let g := summaryGroup usable useSeller k
  let total := g.length
  let ocount := (g.filter (fun a => a.outlier_flag)).length
  let meanDev := (g.map (fun a => a.deviation_pct)).sum / (total : ℚ)
  ⟨k, total, ocount, round2 ((ocount : ℚ) / (total : ℚ) * 100), round2 meanDev⟩

/-- `build_seller_outlier_summary` (lines 622-674).  In the record model
the `mall_name` column always exists, so the missing-column early return
(line 649) cannot fire; the post-filter empty case (line 655) is the
`usable = []` case, for which the key list and hence the result is `[]`.
The final sort is by outlier rate descending (line 672; the source uses
pandas default quicksort, which is unstable, so no tie order is part of
the behaviour being modelled). -/
def build_seller_outlier_summary (rows : List AnnRow) : List SellerSummaryRow :=
  let useSeller := sellerUsable rows
  let usable := usableRows rows
  let keys := (usable.filterMap (fun a => summaryKey useSeller a)).dedup
  let summary := keys.map (fun k => summaryRowFor usable useSeller k)
  List.insertionSort (fun a b => b.outlier_rate ≤ a.outlier_rate) summary

/-! ### Concrete fixtures used by counterexamples and witnesses -/

/-- The whole positive-price population, as a price list. -/
def popPrices (rows : List ORow) : List ℚ :=
  (positiveRows rows).map (fun r => (r.price : ℚ))

/-- An input frame with one unrecognized column. -/
def dfExtra : DF := ⟨["foo"], [[Cell.str "bar"]]⟩

/-- Two distinct source columns that both normalize onto `price`:
`lprice` is renamed by the synonym mapping, then `PRICE` by the
case-normalization pass, leaving two `price` labels. -/
def dfDupPrice : DF := ⟨["lprice", "PRICE"], [[Cell.int 1, Cell.int 2]]⟩

/-- An input frame whose price is a negative number. -/
def dfNegPrice : DF := ⟨["price"], [[Cell.int (-5)]]⟩

/-- `map_columns dfExtra` evaluates to this frame. -/
def outExtra : DF :=
  ⟨["foo", "query", "product_id", "page_rank", "product_name",
    "brand", "maker", "price", "category1", "category2",
    "category3", "link", "image_url", "seller", "mall_name"],
   [[Cell.str "bar", Cell.null, Cell.null, Cell.null, Cell.null,
     Cell.null, Cell.null, Cell.int 0, Cell.null, Cell.null,
     Cell.null, Cell.null, Cell.null, Cell.null, Cell.null]]⟩

/-- `map_columns dfNegPrice` evaluates to this frame. -/
def outNegPrice : DF :=
  ⟨["price", "query", "product_id", "page_rank", "product_name",
    "brand", "maker", "category1", "category2", "category3",
    "link", "image_url", "seller", "mall_name"],
   [[Cell.int (-5), Cell.null, Cell.null, Cell.null, Cell.null,
     Cell.null, Cell.null, Cell.null, Cell.null, Cell.null,
     Cell.null, Cell.null, Cell.null, Cell.null]]⟩

/-- The ten-price scenario of the spec §8 and `test_v4_outlier.py`. -/
def c3row (p : Int) : ORow := ⟨some "캄프 카밍패드", p, none, none⟩

def c3rows : List ORow :=
  [c3row 8000, c3row 12000, c3row 15000, c3row 18000, c3row 20000,
   c3row 22000, c3row 25000, c3row 30000, c3row 41600, c3row 68000]

/-- A one-row population for the C5 witness. -/
def w5row : ORow := ⟨some "q", 10, none, none⟩

/-- The ten prices of the scenario, as rationals. -/
def c3prices : List ℚ :=
  [8000, 12000, 15000, 18000, 20000, 22000, 25000, 30000, 41600, 68000]

/-- The IQR statistics the code actually computes on the ten prices under
pandas default linear quantile interpolation: Q1 at position 2.25 is
15750, Q3 at position 6.75 is 28750, IQR 13000, bounds [-3750, 48250],
median 21000. -/
def c3stat : IqrStat := ⟨15750, 28750, 13000, -3750, 48250, 21000⟩

def run1_pred (rows : List PRow) (v : Bool) : PRow → Bool :=
  fun r => decide (final_reason (modeSmallest (kept_sizes rows)) v r = "")

instance : IsTrans SellerSummaryRow (fun a b => b.outlier_rate ≤ a.outlier_rate) :=
  ⟨fun _ _ _ hab hbc => le_trans hbc hab⟩

instance : IsTotal SellerSummaryRow (fun a b => b.outlier_rate ≤ a.outlier_rate) :=
  ⟨fun a b => le_total b.outlier_rate a.outlier_rate⟩

def c9rows : List AnnRow :=
  [⟨⟨none, 10, some "A", none⟩, 0, false⟩, ⟨⟨none, 20, some "A", none⟩, 50, true⟩]

/-! ### Helper lemmas and sanity checks -/

/-- The size-extraction round trips of spec section 8. -/
theorem parse_size_examples :
    parse_size_from_title (some "캄프 카밍패드 70매") = some 70 ∧
    parse_size_from_title (some "100매입 대용량") = some 100 ∧
    parse_size_from_title (some "캄프 카밍패드") = none ∧
    parse_size_from_title (some "60 매") = some 60 := by decide

theorem toNumericInt_examples :
    toNumericInt (Cell.str "abc") = 0 ∧
    toNumericInt (Cell.str "-5") = -5 ∧
    toNumericInt (Cell.str "12.7") = 12 := by decide

theorem filterMap_ite_eq_map_filter {α β : Type} (l : List α) (p : α → Prop)
    [DecidablePred p] (g : α → β) :
    l.filterMap (fun r => if p r then some (g r) else none) =
      (l.filter (fun r => decide (p r))).map g := by
  induction l with
  | nil => rfl
  | cons a t ih => by_cases h : p a <;> simp [h, ih]

theorem modeSmallest_eq_none {l : List Nat} (h : modeSmallest l = none) : l = [] := by
  by_contra hne
  obtain ⟨m, hm⟩ : ∃ m, m ∈ List.argmax (fun a => l.count a) l := by
    cases ha : List.argmax (fun a => l.count a) l with
    | none => exact absurd (List.argmax_eq_none.mp ha) hne
    | some m => exact ⟨m, by simp [ha, Option.mem_def]⟩
  have hmem : m ∈ l := List.argmax_mem hm
  have hmax : ∀ b ∈ l, l.count b ≤ l.count m :=
    fun b hb => List.le_of_mem_argmax hb hm
  have : m ∈ l.filter (fun a => l.all (fun b => decide (l.count b ≤ l.count a))) := by
    refine List.mem_filter.mpr ⟨hmem, ?_⟩
    simp only [List.all_eq_true, decide_eq_true_eq]
    exact hmax
  have hfil := List.min?_eq_none_iff.mp h
  rw [hfil] at this
  exact absurd this (List.not_mem_nil m)

theorem modeSmallest_mem {l : List Nat} {m : Nat} (h : modeSmallest l = some m) :
    m ∈ l :=
  List.mem_of_mem_filter (List.min?_mem min_choice h)

theorem min?_of_all_eq {l : List Nat} {m : Nat} (hne : l ≠ [])
    (hall : ∀ x ∈ l, x = m) : l.min? = some m := by
  induction l with
  | nil => exact absurd rfl hne
  | cons a t ih =>
    have ha : a = m := hall a (by simp)
    rw [List.min?_cons]
    cases ht : t with
    | nil => simp [ht, ha]
    | cons b t2 =>
      have h2 : ∀ x ∈ t, x = m := fun x hx => hall x (List.mem_cons_of_mem a hx)
      have hmin : t.min? = some m := ih (by simp [ht]) h2
      rw [ht] at hmin
      rw [hmin]
      simp [ha]

theorem modeSmallest_of_all_eq {l : List Nat} {m : Nat} (hne : l ≠ [])
    (hall : ∀ x ∈ l, x = m) : modeSmallest l = some m := by
  have hf : l.filter (fun a => l.all (fun b => decide (l.count b ≤ l.count a))) = l := by
    refine List.filter_eq_self.mpr (fun a _ => ?_)
    simp only [List.all_eq_true, decide_eq_true_eq]
    intro b hb
    rw [hall b hb]
    rw [hall a (by assumption)]
  rw [modeSmallest, hf]
  exact min?_of_all_eq hne hall

/-! ### Claim C10 -/

/-- Claim C10: for every input table and every pair of query values, the
two calls of `filter_search_results` return identical results — the
classification does not read the query parameter at all. -/
theorem C10_query_independence (rows : List PRow) (q1 q2 : String) (v : Bool) :
    filter_search_results rows q1 v = filter_search_results rows q2 v := rfl

/-! ### Claim C4 -/

/-- Claim C4: for gate-passing records the pattern stage assigns exactly
the first applicable rule in the fixed priority order BUNDLE_FREE_GIFT,
MULTIPACK, REFILL_SAMPLE, OTHER_PRODUCT_COMBO; in particular a name
matching the bundle vocabulary that also contains `+` is tagged
BUNDLE_FREE_GIFT, and OTHER_PRODUCT_COMBO is assigned exactly when `+`
occurs and none of the three vocabularies matched. -/
theorem C4_exclusion_priority :
    (∀ pn : Option String, check_exclude_patterns pn = firstApplicableRule pn) ∧
    (∀ s : String, matchesAny BUNDLE_TERMS (lowerStr s) = true →
        check_exclude_patterns (some s) = "BUNDLE_FREE_GIFT") ∧
    (∀ s : String, check_exclude_patterns (some s) = "OTHER_PRODUCT_COMBO" ↔
        (strContains (lowerStr s) "+" = true ∧
         matchesAny BUNDLE_TERMS (lowerStr s) = false ∧
         matchesAny MULTIPACK_TERMS (lowerStr s) = false ∧
         matchesAny REFILL_SAMPLE_TERMS (lowerStr s) = false)) ∧
    (∀ r : PRow, check_include_condition r = true →
        initial_reason r = check_exclude_patterns r.product_name) := by
  refine ⟨?_, ?_, ?_, ?_⟩
  · intro pn
    cases pn with
    | none => rfl
    | some s =>
      simp only [check_exclude_patterns, firstApplicableRule, exclusionRules]
      cases hb : matchesAny BUNDLE_TERMS (lowerStr s) <;>
        cases hm : matchesAny MULTIPACK_TERMS (lowerStr s) <;>
          cases hr : matchesAny REFILL_SAMPLE_TERMS (lowerStr s) <;>
            cases hp : strContains (lowerStr s) "+" <;>
              simp [List.find?, hb, hm, hr, hp]
  · intro s h
    simp [check_exclude_patterns, h]
  · intro s
    simp only [check_exclude_patterns]
    cases hb : matchesAny BUNDLE_TERMS (lowerStr s) <;>
      cases hm : matchesAny MULTIPACK_TERMS (lowerStr s) <;>
        cases hr : matchesAny REFILL_SAMPLE_TERMS (lowerStr s) <;>
          cases hp : strContains (lowerStr s) "+" <;>
            simp [hb, hm, hr, hp]
  · intro r h
    simp [initial_reason, h]

/-- Witness for C4 at concrete product names: a name in the bundle
vocabulary that also contains `+` is tagged BUNDLE_FREE_GIFT, and a name
whose only signal is `+` is tagged OTHER_PRODUCT_COMBO. -/
theorem C4_exclusion_priority_witness :
    check_exclude_patterns (some "캄프 카밍패드 70매 세트+증정") = "BUNDLE_FREE_GIFT" ∧
    check_exclude_patterns (some "캄프 카밍패드 70매+마스크") = "OTHER_PRODUCT_COMBO" :=
  ⟨C4_exclusion_priority.2.1 "캄프 카밍패드 70매 세트+증정" (by decide),
   (C4_exclusion_priority.2.2.1 "캄프 카밍패드 70매+마스크").mpr
     ⟨by decide, by decide, by decide, by decide⟩⟩

/-! ### Claim C6 -/

/-- Claim C6: with a non-empty valid `group_cols`, the quantile-cap
detector applies to every record the bounds of the ENTIRE positive-price
population — lower is the whole population Q1 and upper its
`upper_quantile` quantile — and the stats table is a single row whose
`outlier_count` is the single scalar count over the whole population. -/
theorem C6_quantile_whole_population (rows : List ORow) (uq : ℚ)
    (use_aux : Bool) (aux_pct : ℚ) (hne : positiveRows rows ≠ []) :
    (∀ a ∈ (detect_outliers_quantile rows true uq use_aux aux_pct).before,
        a.bound_lower = quantileLinear (popPrices rows) (1/4) ∧
        a.bound_upper = quantileLinear (popPrices rows) uq) ∧
    (detect_outliers_quantile rows true uq use_aux aux_pct).stats =
      [⟨compute_stats_quantile uq (popPrices rows),
        ((detect_outliers_quantile rows true uq use_aux aux_pct).before.filter
          (fun a => a.outlier_flag)).length⟩] := by
  have hni : (positiveRows rows).isEmpty = false := List.isEmpty_eq_false.mpr hne
  constructor
  · intro a ha
    simp only [detect_outliers_quantile, hni, Bool.false_eq_true, if_false,
      List.mem_map] at ha
    obtain ⟨r, _, rfl⟩ := ha
    exact ⟨rfl, rfl⟩
  · simp only [detect_outliers_quantile, hni, Bool.false_eq_true, if_false, popPrices]

/-- Witness for C6 on a two-row population. -/
theorem C6_quantile_whole_population_witness :
    (∀ a ∈ (detect_outliers_quantile
        [⟨some "a", 10, none, none⟩, ⟨some "b", 30, none, none⟩]
        true (3/4) false 50).before,
      a.bound_lower = quantileLinear (popPrices
        [⟨some "a", 10, none, none⟩, ⟨some "b", 30, none, none⟩]) (1/4) ∧
      a.bound_upper = quantileLinear (popPrices
        [⟨some "a", 10, none, none⟩, ⟨some "b", 30, none, none⟩]) (3/4)) ∧
    (detect_outliers_quantile
        [⟨some "a", 10, none, none⟩, ⟨some "b", 30, none, none⟩]
        true (3/4) false 50).stats =
      [⟨compute_stats_quantile (3/4) (popPrices
          [⟨some "a", 10, none, none⟩, ⟨some "b", 30, none, none⟩]),
        ((detect_outliers_quantile
            [⟨some "a", 10, none, none⟩, ⟨some "b", 30, none, none⟩]
            true (3/4) false 50).before.filter (fun a => a.outlier_flag)).length⟩] :=
  C6_quantile_whole_population
    [⟨some "a", 10, none, none⟩, ⟨some "b", 30, none, none⟩]
    (3/4) false 50 (by decide)

/-! ### Claim C5 -/

/-- Claim C5: in `df_before_outlier` returned by `detect_outliers_iqr`,
`outlier_flag` is true exactly when the price lies strictly outside the
[lower, upper] bounds of its group or the auxiliary rule fires;
consequently `df_inliers` prices lie within the bounds, every
`df_outliers` row violates a bound or the auxiliary rule, and the two
parts are exactly the flag-false and flag-true rows of
`df_before_outlier`. -/
theorem C5_outlier_flag_invariant (rows : List ORow) (grouped use_aux : Bool)
    (aux_pct : ℚ) :
    (∀ a ∈ (detect_outliers_iqr rows grouped use_aux aux_pct).before,
        (a.outlier_flag = true ↔
          ((a.row.price : ℚ) < (statFor grouped (positiveRows rows) a.row.gkey).lower ∨
           (statFor grouped (positiveRows rows) a.row.gkey).upper < (a.row.price : ℚ) ∨
           (use_aux = true ∧ aux_pct ≤ |a.deviation_pct|)))) ∧
    (detect_outliers_iqr rows grouped use_aux aux_pct).inliers =
      (detect_outliers_iqr rows grouped use_aux aux_pct).before.filter
        (fun a => !a.outlier_flag) ∧
    (detect_outliers_iqr rows grouped use_aux aux_pct).outliers =
      (detect_outliers_iqr rows grouped use_aux aux_pct).before.filter
        (fun a => a.outlier_flag) ∧
    (∀ a ∈ (detect_outliers_iqr rows grouped use_aux aux_pct).inliers,
        (statFor grouped (positiveRows rows) a.row.gkey).lower ≤ (a.row.price : ℚ) ∧
        (a.row.price : ℚ) ≤ (statFor grouped (positiveRows rows) a.row.gkey).upper) ∧
    (∀ a ∈ (detect_outliers_iqr rows grouped use_aux aux_pct).outliers,
        (a.row.price : ℚ) < (statFor grouped (positiveRows rows) a.row.gkey).lower ∨
        (statFor grouped (positiveRows rows) a.row.gkey).upper < (a.row.price : ℚ) ∨
        (use_aux = true ∧ aux_pct ≤ |a.deviation_pct|)) := by
  have hflag : ∀ a ∈ (detect_outliers_iqr rows grouped use_aux aux_pct).before,
      (a.outlier_flag = true ↔
        ((a.row.price : ℚ) < (statFor grouped (positiveRows rows) a.row.gkey).lower ∨
         (statFor grouped (positiveRows rows) a.row.gkey).upper < (a.row.price : ℚ) ∨
         (use_aux = true ∧ aux_pct ≤ |a.deviation_pct|))) := by
    intro a ha
    cases hni : (positiveRows rows).isEmpty with
    | true =>
      simp only [detect_outliers_iqr, hni, if_true] at ha
      exact absurd ha (List.not_mem_nil a)
    | false =>
      simp only [detect_outliers_iqr, hni, Bool.false_eq_true, if_false,
        List.mem_map] at ha
      obtain ⟨r, _, rfl⟩ := ha
      simp only [annotateIqr, Bool.or_eq_true, Bool.and_eq_true,
        decide_eq_true_eq]
      tauto
  have hparts :
      (detect_outliers_iqr rows grouped use_aux aux_pct).inliers =
        (detect_outliers_iqr rows grouped use_aux aux_pct).before.filter
          (fun a => !a.outlier_flag) ∧
      (detect_outliers_iqr rows grouped use_aux aux_pct).outliers =
        (detect_outliers_iqr rows grouped use_aux aux_pct).before.filter
          (fun a => a.outlier_flag) := by
    cases hni : (positiveRows rows).isEmpty with
    | true => simp [detect_outliers_iqr, hni]
    | false => simp [detect_outliers_iqr, hni]
  refine ⟨hflag, hparts.1, hparts.2, ?_, ?_⟩
  · intro a ha
    have hmem : a ∈ (detect_outliers_iqr rows grouped use_aux aux_pct).before := by
      rw [hparts.1] at ha
      exact List.mem_of_mem_filter ha
    have hfalse : a.outlier_flag = false := by
      rw [hparts.1] at ha
      have := (List.mem_filter.mp ha).2
      simpa using this
    have hnot : ¬((a.row.price : ℚ) < (statFor grouped (positiveRows rows) a.row.gkey).lower ∨
        (statFor grouped (positiveRows rows) a.row.gkey).upper < (a.row.price : ℚ) ∨
        (use_aux = true ∧ aux_pct ≤ |a.deviation_pct|)) := by
      intro hcontra
      have := (hflag a hmem).mpr hcontra
      rw [hfalse] at this
      exact Bool.false_ne_true this
    push_neg at hnot
    exact ⟨hnot.1, hnot.2.1⟩
  · intro a ha
    have hmem : a ∈ (detect_outliers_iqr rows grouped use_aux aux_pct).before := by
      rw [hparts.2] at ha
      exact List.mem_of_mem_filter ha
    have htrue : a.outlier_flag = true := by
      rw [hparts.2] at ha
      exact (List.mem_filter.mp ha).2
    exact (hflag a hmem).mp htrue

/-- Witness for C5: on the one-row population the single record has flag
false, and indeed its price 10 neither violates the degenerate bounds
[10, 10] nor (aux disabled) the auxiliary rule. -/
theorem C5_outlier_flag_invariant_witness :
    ((⟨w5row, 0, false⟩ : AnnRow).outlier_flag = true ↔
      (((⟨w5row, 0, false⟩ : AnnRow).row.price : ℚ) <
         (statFor false (positiveRows [w5row]) (⟨w5row, 0, false⟩ : AnnRow).row.gkey).lower ∨
       (statFor false (positiveRows [w5row]) (⟨w5row, 0, false⟩ : AnnRow).row.gkey).upper <
         ((⟨w5row, 0, false⟩ : AnnRow).row.price : ℚ) ∨
       (false = true ∧ (50 : ℚ) ≤ |(⟨w5row, 0, false⟩ : AnnRow).deviation_pct|))) :=
  (C5_outlier_flag_invariant [w5row] false false 50).1 ⟨w5row, 0, false⟩ (by
    norm_num [detect_outliers_iqr, positiveRows, annotateIqr, statFor, groupPrices,
      compute_stats, quantileLinear, interpolate, sortAsc, List.insertionSort,
      List.orderedInsert, w5row])

/-! ### Claim C3 -/

theorem c3_pos : positiveRows c3rows = c3rows := by decide

theorem c3_gp : groupPrices true c3rows (some "캄프 카밍패드") = c3prices := by
  norm_num [groupPrices, c3rows, c3row, c3prices]

theorem c3_stat_eval : statFor true c3rows (some "캄프 카밍패드") = c3stat := by
  rw [statFor, c3_gp]
  norm_num [compute_stats, c3stat, c3prices, quantileLinear, interpolate, sortAsc,
    List.insertionSort, List.orderedInsert, List.getD, Int.toNat, min_def]

theorem c3_ann (p : Int) :
    annotateIqr true false 50 c3rows (c3row p) =
      ⟨c3row p, ((p : ℚ) - 21000) / 21000 * 100,
       decide ((p : ℚ) < -3750) || decide ((48250 : ℚ) < (p : ℚ))⟩ := by
  have hk : (c3row p).gkey = some "캄프 카밍패드" := rfl
  have hp : (c3row p).price = p := rfl
  rw [annotateIqr, hk, c3_stat_eval, hp]
  norm_num [c3stat]

theorem c3_map_eval {β : Type} (f : ORow → β) :
    c3rows.map f =
      [f (c3row 8000), f (c3row 12000), f (c3row 15000), f (c3row 18000),
       f (c3row 20000), f (c3row 22000), f (c3row 25000), f (c3row 30000),
       f (c3row 41600), f (c3row 68000)] := rfl

theorem c3_before_eval :
    (detect_outliers_iqr c3rows true false 50).before =
      [⟨c3row 8000, -1300/21, false⟩, ⟨c3row 12000, -300/7, false⟩,
       ⟨c3row 15000, -200/7, false⟩, ⟨c3row 18000, -100/7, false⟩,
       ⟨c3row 20000, -100/21, false⟩, ⟨c3row 22000, 100/21, false⟩,
       ⟨c3row 25000, 400/21, false⟩, ⟨c3row 30000, 300/7, false⟩,
       ⟨c3row 41600, 2060/21, false⟩, ⟨c3row 68000, 4700/21, true⟩] := by
  simp only [detect_outliers_iqr, c3_pos]
  rw [if_neg (by decide)]
  rw [c3_map_eval]
  simp only [c3_ann]
  norm_num

theorem c3_inliers_eval :
    (detect_outliers_iqr c3rows true false 50).inliers =
      [⟨c3row 8000, -1300/21, false⟩, ⟨c3row 12000, -300/7, false⟩,
       ⟨c3row 15000, -200/7, false⟩, ⟨c3row 18000, -100/7, false⟩,
       ⟨c3row 20000, -100/21, false⟩, ⟨c3row 22000, 100/21, false⟩,
       ⟨c3row 25000, 400/21, false⟩, ⟨c3row 30000, 300/7, false⟩,
       ⟨c3row 41600, 2060/21, false⟩] := by
  simp only [detect_outliers_iqr, c3_pos]
  rw [if_neg (by decide)]
  rw [c3_map_eval]
  simp only [c3_ann]
  norm_num

theorem c3_outliers_eval :
    (detect_outliers_iqr c3rows true false 50).outliers =
      [⟨c3row 68000, 4700/21, true⟩] := by
  simp only [detect_outliers_iqr, c3_pos]
  rw [if_neg (by decide)]
  rw [c3_map_eval]
  simp only [c3_ann]
  norm_num

theorem c3_stats_eval :
    (detect_outliers_iqr c3rows true false 50).stats =
      [⟨some (some "캄프 카밍패드"), c3stat, 1⟩] := by
  simp only [detect_outliers_iqr, c3_pos]
  rw [if_neg (by decide)]
  rw [c3_map_eval, c3_map_eval]
  simp only [c3_ann]
  rw [show ([(c3row 8000).gkey, (c3row 12000).gkey, (c3row 15000).gkey,
      (c3row 18000).gkey, (c3row 20000).gkey, (c3row 22000).gkey,
      (c3row 25000).gkey, (c3row 30000).gkey, (c3row 41600).gkey,
      (c3row 68000).gkey] : List (Option String)).dedup =
      [some "캄프 카밍패드"] from by decide]
  simp only [if_true]
  norm_num [c3row, c3_stat_eval]

/-- Claim C3 counterexample: on the ten-price group the code computes
Q1 = 15750 (pandas linear interpolation at position 0.25 × 9 = 2.25,
between 15000 and 18000), not the Q1 = 14250 the claim asserts. -/
theorem C3_counterexample :
    (detect_outliers_iqr c3rows true false 50).stats.map (fun s => s.stat.Q1) = [15750] ∧
    (detect_outliers_iqr c3rows true false 50).stats.map (fun s => s.stat.Q1) ≠ [14250] := by
  rw [c3_stats_eval]
  constructor
  · norm_num [c3stat]
  · norm_num [c3stat]

/-- Claim C3 as amended: on the ten-price group `detect_outliers_iqr`
computes Q1 = 15750, Q3 = 28750, IQR = 13000 and upper = 48250, flags
exactly the 68000 record as an outlier, and every `df_inliers` price is
at most 45500. -/
theorem C3_amended :
    (detect_outliers_iqr c3rows true false 50).stats.map
        (fun s => (s.stat.Q1, s.stat.Q3, s.stat.IQR, s.stat.upper)) =
      [((15750 : ℚ), (28750 : ℚ), (13000 : ℚ), (48250 : ℚ))] ∧
    (detect_outliers_iqr c3rows true false 50).outliers.map (fun a => a.row.price) =
      [68000] ∧
    ∀ p ∈ (detect_outliers_iqr c3rows true false 50).inliers.map (fun a => a.row.price),
      p ≤ 45500 := by
  refine ⟨?_, ?_, ?_⟩
  · rw [c3_stats_eval]; norm_num [c3stat]
  · rw [c3_outliers_eval]; norm_num [c3row]
  · rw [c3_inliers_eval]; decide

/-- Witness for C3 as amended, at the inlier price 8000. -/
theorem C3_amended_witness :
    (8000 : Int) ∈ (detect_outliers_iqr c3rows true false 50).inliers.map
      (fun a => a.row.price) ∧ (8000 : Int) ≤ 45500 :=
  ⟨by rw [c3_inliers_eval]; decide,
   C3_amended.2.2 8000 (by rw [c3_inliers_eval]; decide)⟩

/-! ### Claim C7 -/

theorem sorted_getD_le (s : List ℚ) (hs : List.Sorted (· ≤ ·) s) {a b : ℕ}
    (hab : a ≤ b) (hb : b < s.length) : s.getD a 0 ≤ s.getD b 0 := by
  have ha : a < s.length := lt_of_le_of_lt hab hb
  rw [List.getD_eq_getElem s 0 ha, List.getD_eq_getElem s 0 hb]
  rcases eq_or_lt_of_le hab with rfl | hlt
  · exact le_refl _
  · have := List.Sorted.rel_get_of_lt hs
      (show (⟨a, ha⟩ : Fin s.length) < ⟨b, hb⟩ from hlt)
    simpa using this

/-- Linear interpolation over a sorted list is monotone in the position. -/
theorem interpolate_mono (s : List ℚ) (hs : List.Sorted (· ≤ ·) s) {p q : ℚ}
    (h0 : 0 ≤ p) (hpq : p ≤ q) (h1 : q ≤ (s.length : ℚ) - 1) :
    interpolate s p ≤ interpolate s q := by
  have hq0 : 0 ≤ q := le_trans h0 hpq
  have hn1 : 1 ≤ (s.length : ℚ) := by linarith
  have hnn : 1 ≤ s.length := by exact_mod_cast hn1
  have hfp0 : 0 ≤ ⌊p⌋ := by positivity
  have hfq0 : 0 ≤ ⌊q⌋ := by positivity
  have hffle : ⌊p⌋ ≤ ⌊q⌋ := Int.floor_le_floor hpq
  have hfq_le : ⌊q⌋ ≤ (s.length : ℤ) - 1 := by
    have h2 : (⌊q⌋ : ℚ) ≤ (s.length : ℚ) - 1 := le_trans (Int.floor_le q) h1
    exact_mod_cast h2
  have hi : ((⌊p⌋.toNat : ℤ)) = ⌊p⌋ := Int.toNat_of_nonneg hfp0
  have hj : ((⌊q⌋.toNat : ℤ)) = ⌊q⌋ := Int.toNat_of_nonneg hfq0
  have hij : ⌊p⌋.toNat ≤ ⌊q⌋.toNat := by omega
  have hjn : ⌊q⌋.toNat ≤ s.length - 1 := by omega
  have hjlt : ⌊q⌋.toNat < s.length := by omega
  have hfr_p0 : 0 ≤ p - ⌊p⌋ := by linarith [Int.floor_le p]
  have hfr_p1 : p - ⌊p⌋ ≤ 1 := by linarith [Int.lt_floor_add_one p]
  have hfr_q0 : 0 ≤ q - ⌊q⌋ := by linarith [Int.floor_le q]
  have hlohi_p : s.getD ⌊p⌋.toNat 0 ≤ s.getD (min (⌊p⌋.toNat + 1) (s.length - 1)) 0 :=
    sorted_getD_le s hs (by omega) (by omega)
  have hlohi_q : s.getD ⌊q⌋.toNat 0 ≤ s.getD (min (⌊q⌋.toNat + 1) (s.length - 1)) 0 :=
    sorted_getD_le s hs (by omega) (by omega)
  simp only [interpolate]
  rcases eq_or_lt_of_le hij with heq | hlt
  · have hfeq : ⌊p⌋ = ⌊q⌋ := by omega
    rw [← heq, ← hfeq]
    nlinarith [hlohi_p]
  · have hstep1 : s.getD ⌊p⌋.toNat 0 + (p - ⌊p⌋) *
        (s.getD (min (⌊p⌋.toNat + 1) (s.length - 1)) 0 - s.getD ⌊p⌋.toNat 0) ≤
        s.getD (min (⌊p⌋.toNat + 1) (s.length - 1)) 0 := by
      nlinarith [hlohi_p]
    have hstep2 : s.getD (min (⌊p⌋.toNat + 1) (s.length - 1)) 0 ≤ s.getD ⌊q⌋.toNat 0 :=
      sorted_getD_le s hs (by omega) hjlt
    have hstep3 : s.getD ⌊q⌋.toNat 0 ≤ s.getD ⌊q⌋.toNat 0 + (q - ⌊q⌋) *
        (s.getD (min (⌊q⌋.toNat + 1) (s.length - 1)) 0 - s.getD ⌊q⌋.toNat 0) := by
      nlinarith [hlohi_q]
    linarith

/-- `Series.quantile` is monotone in the requested quantile. -/
theorem quantileLinear_mono (l : List ℚ) {q q' : ℚ} (h0 : 0 ≤ q) (hqq : q ≤ q')
    (h1 : q' ≤ 1) : quantileLinear l q ≤ quantileLinear l q' := by
  unfold quantileLinear
  cases hE : l.isEmpty with
  | true => simp
  | false =>
    simp only [Bool.false_eq_true, if_false]
    have hne : l ≠ [] := List.isEmpty_eq_false.mp hE
    have hlen : 1 ≤ l.length := List.length_pos.mpr hne
    have hlen1 : 0 ≤ (l.length : ℚ) - 1 := by
      have : (1 : ℚ) ≤ (l.length : ℚ) := by exact_mod_cast hlen
      linarith
    have hsorted : List.Sorted (· ≤ ·) (sortAsc l) := by
      exact List.sorted_insertionSort (· ≤ ·) l
    have hslen : (sortAsc l).length = l.length := (List.perm_insertionSort (· ≤ ·) l).length_eq
    refine interpolate_mono (sortAsc l) hsorted ?_ ?_ ?_
    · exact mul_nonneg h0 hlen1
    · exact mul_le_mul_of_nonneg_right hqq hlen1
    · rw [hslen]
      nlinarith

/-- Claim C7 counterexample: the group [1, 100, 100, 100] has
`upper - lower` = 99 (Q1 = 75.25, Q3 = 100), but adding the value 1000 —
strictly greater than every element — moves both quartile positions onto
the value 100, giving IQR = 0 and `upper - lower` = 0 < 99.  Widening the
input by a more extreme value DID decrease the width. -/
theorem C7_counterexample :
    (∀ y ∈ [(1 : ℚ), 100, 100, 100], y < 1000) ∧
    (compute_stats [(1 : ℚ), 100, 100, 100, 1000]).upper -
        (compute_stats [(1 : ℚ), 100, 100, 100, 1000]).lower <
      (compute_stats [(1 : ℚ), 100, 100, 100]).upper -
        (compute_stats [(1 : ℚ), 100, 100, 100]).lower := by
  constructor
  · simp only [List.forall_mem_cons, List.forall_mem_nil]
    norm_num
  · norm_num [compute_stats, quantileLinear, interpolate, sortAsc,
      List.insertionSort, List.orderedInsert, List.getD, Int.toNat, min_def]

/-- Claim C7 as amended: for every fixed group of prices the width
`upper - lower` computed by the IQR detector equals `4 * IQR` and is
nonnegative (since Q1 ≤ Q3 by monotonicity of the quantile), but it is
NOT monotone under adding values more extreme than the current extremes
(see the counterexample). -/
theorem C7_amended (l : List ℚ) :
    (compute_stats l).upper - (compute_stats l).lower = 4 * (compute_stats l).IQR ∧
    0 ≤ (compute_stats l).IQR := by
  constructor
  · simp only [compute_stats]
    ring
  · simp only [compute_stats]
    have := quantileLinear_mono l (by norm_num : (0:ℚ) ≤ 1/4)
      (by norm_num : (1/4 : ℚ) ≤ 3/4) (by norm_num : (3/4 : ℚ) ≤ 1)
    linarith

/-! ### Claim C8 -/

theorem final_reason_blank_initial {mode : Option Nat} {v : Bool} {r : PRow}
    (h : final_reason mode v r = "") : initial_reason r = "" := by
  by_contra hi
  unfold final_reason at h
  rw [if_pos hi] at h
  exact hi h

theorem final_reason_true_iff (mode : Option Nat) (r : PRow) :
    final_reason mode true r = "" ↔ initial_reason r = "" := by
  constructor
  · exact final_reason_blank_initial
  · intro h
    unfold final_reason
    rw [if_neg (by simp [h] : ¬ initial_reason r ≠ "")]
    cases mode with
    | none => rfl
    | some m =>
      by_cases hs : parse_size_from_title r.product_name = some m
      · simp [hs]
      · simp [hs]

theorem final_reason_none_iff (v : Bool) (r : PRow) :
    final_reason none v r = "" ↔ initial_reason r = "" := by
  constructor
  · exact final_reason_blank_initial
  · intro h
    unfold final_reason
    rw [if_neg (by simp [h] : ¬ initial_reason r ≠ "")]

theorem final_reason_some_false_iff (m : Nat) (r : PRow) :
    final_reason (some m) false r = "" ↔
      (initial_reason r = "" ∧ parse_size_from_title r.product_name = some m) := by
  unfold final_reason
  by_cases hi : initial_reason r = ""
  · rw [if_neg (by simp [hi] : ¬ initial_reason r ≠ "")]
    by_cases hs : parse_size_from_title r.product_name = some m
    · simp [hi, hs]
    · simp [hi, hs]
  · rw [if_pos hi]
    simp [hi]

theorem kept_eq_filter (rows : List PRow) (q : String) (v : Bool) :
    (filter_search_results rows q v).kept =
      (rows.filter (run1_pred rows v)).map
        (fun r => (⟨r, parse_size_from_title r.product_name, ""⟩ : CRow)) := by
  unfold filter_search_results run1_pred
  exact filterMap_ite_eq_map_filter rows _ _

theorem excluded_nil_of_all_blank (rows : List PRow) (q : String) (v : Bool)
    (h : ∀ r ∈ rows, final_reason (modeSmallest (kept_sizes rows)) v r = "") :
    (filter_search_results rows q v).excluded = [] := by
  unfold filter_search_results
  refine List.filterMap_eq_nil_iff.mpr (fun r hr => ?_)
  simp [h r hr]

theorem kept_map_of_all_blank (rows : List PRow) (q : String) (v : Bool)
    (h : ∀ r ∈ rows, final_reason (modeSmallest (kept_sizes rows)) v r = "") :
    (filter_search_results rows q v).kept =
      rows.map (fun r => (⟨r, parse_size_from_title r.product_name, ""⟩ : CRow)) := by
  rw [kept_eq_filter]
  rw [List.filter_eq_self.mpr (fun r hr => by simp [run1_pred, h r hr])]

/-- Claim C8: running `filter_search_results` a second time on the
`df_kept` output of a first run, with the same `include_variants`, returns
the same kept set unchanged, an empty excluded set (no record acquires any
`excluded_reason`, in particular none becomes NON_STANDARD_SIZE), and the
same modal size. -/
theorem C8_idempotence (rows : List PRow) (q : String) (v : Bool) :
    filter_search_results ((filter_search_results rows q v).kept.map (fun c => c.row)) q v =
      ⟨(filter_search_results rows q v).kept, [], (filter_search_results rows q v).mode_size⟩ := by
  have hkept := kept_eq_filter rows q v
  have hrows2 : (filter_search_results rows q v).kept.map (fun c => c.row) =
      rows.filter (run1_pred rows v) := by
    rw [hkept, List.map_map]
    exact List.map_id _
  have hmem2 : ∀ r ∈ rows.filter (run1_pred rows v),
      final_reason (modeSmallest (kept_sizes rows)) v r = "" := by
    intro r hr
    have h2 := (List.mem_filter.mp hr).2
    unfold run1_pred at h2
    simpa using h2
  have hmemi : ∀ r ∈ rows.filter (run1_pred rows v), initial_reason r = "" :=
    fun r hr => final_reason_blank_initial (hmem2 r hr)
  have hprov2 : provisional_kept (rows.filter (run1_pred rows v)) =
      rows.filter (run1_pred rows v) := by
    refine List.filter_eq_self.mpr (fun r hr => ?_)
    simp [hmemi r hr]
  have hmode2 : modeSmallest (kept_sizes (rows.filter (run1_pred rows v))) =
      modeSmallest (kept_sizes rows) := by
    cases v with
    | true =>
      have hre : rows.filter (run1_pred rows true) = provisional_kept rows := by
        unfold provisional_kept run1_pred
        refine List.filter_congr (fun r _ => ?_)
        simp [final_reason_true_iff]
      have hks : kept_sizes (rows.filter (run1_pred rows true)) = kept_sizes rows := by
        unfold kept_sizes
        rw [hprov2, hre]
      rw [hks]
    | false =>
      cases hm : modeSmallest (kept_sizes rows) with
      | none =>
        have hre : rows.filter (run1_pred rows false) = provisional_kept rows := by
          unfold provisional_kept run1_pred
          refine List.filter_congr (fun r _ => ?_)
          rw [hm]
          simp [final_reason_none_iff]
        have hks : kept_sizes (rows.filter (run1_pred rows false)) = kept_sizes rows := by
          unfold kept_sizes
          rw [hprov2, hre]
        rw [hks]
        exact hm
      | some m =>
        have hre : rows.filter (run1_pred rows false) =
            rows.filter (fun r => decide (initial_reason r = "" ∧
              parse_size_from_title r.product_name = some m)) := by
          unfold run1_pred
          refine List.filter_congr (fun r _ => ?_)
          rw [hm]
          simp [final_reason_some_false_iff]
        have hall : ∀ x ∈ kept_sizes (rows.filter (run1_pred rows false)), x = m := by
          intro x hx
          unfold kept_sizes at hx
          rw [hprov2] at hx
          obtain ⟨r, hr, hsz⟩ := List.mem_filterMap.mp hx
          rw [hre] at hr
          have h2 := (List.mem_filter.mp hr).2
          simp only [decide_eq_true_eq] at h2
          rw [h2.2] at hsz
          exact (Option.some_inj.mp hsz).symm
        have hne : kept_sizes (rows.filter (run1_pred rows false)) ≠ [] := by
          have hmem : m ∈ kept_sizes rows := modeSmallest_mem hm
          unfold kept_sizes at hmem
          obtain ⟨r, hr, hsz⟩ := List.mem_filterMap.mp hmem
          have hri : initial_reason r = "" := by
            have := (List.mem_filter.mp hr).2
            simpa using this
          have hrmem : r ∈ rows := List.mem_of_mem_filter hr
          have hrin2 : r ∈ rows.filter (run1_pred rows false) := by
            rw [hre]
            refine List.mem_filter.mpr ⟨hrmem, ?_⟩
            simp [hri, hsz]
          have hmm : m ∈ kept_sizes (rows.filter (run1_pred rows false)) := by
            unfold kept_sizes
            rw [hprov2]
            exact List.mem_filterMap.mpr ⟨r, hrin2, hsz⟩
          intro hcontra
          rw [hcontra] at hmm
          exact absurd hmm (List.not_mem_nil m)
        exact modeSmallest_of_all_eq hne hall
  have hall2 : ∀ r ∈ (filter_search_results rows q v).kept.map (fun c => c.row),
      final_reason (modeSmallest (kept_sizes
        ((filter_search_results rows q v).kept.map (fun c => c.row)))) v r = "" := by
    intro r hr
    rw [hrows2] at hr
    rw [hrows2, hmode2]
    exact hmem2 r hr
  have hk2 : (filter_search_results
        ((filter_search_results rows q v).kept.map (fun c => c.row)) q v).kept =
      (filter_search_results rows q v).kept := by
    rw [kept_map_of_all_blank _ q v hall2, hrows2, hkept]
  have he2 : (filter_search_results
        ((filter_search_results rows q v).kept.map (fun c => c.row)) q v).excluded = [] :=
    excluded_nil_of_all_blank _ q v hall2
  have hm2 : (filter_search_results
        ((filter_search_results rows q v).kept.map (fun c => c.row)) q v).mode_size =
      (filter_search_results rows q v).mode_size := by
    show modeSmallest (kept_sizes ((filter_search_results rows q v).kept.map (fun c => c.row))) =
      (filter_search_results rows q v).mode_size
    rw [hrows2, hmode2]
    rfl
  have heta : filter_search_results
      ((filter_search_results rows q v).kept.map (fun c => c.row)) q v =
      ⟨(filter_search_results ((filter_search_results rows q v).kept.map (fun c => c.row)) q v).kept,
       (filter_search_results ((filter_search_results rows q v).kept.map (fun c => c.row)) q v).excluded,
       (filter_search_results ((filter_search_results rows q v).kept.map (fun c => c.row)) q v).mode_size⟩ := rfl
  rw [heta, hk2, he2, hm2]

/-! ### Claim C9 -/

/-- Claim C9: every seller-summary row has a non-blank key, counts that
aggregate exactly its group, `outlier_rate` equal to
`outlier_count / total_count * 100` rounded to 2 decimals and a
2-decimal-rounded mean deviation; the result is sorted by outlier rate
descending; the fallback to `mall_name` happens only when `seller` is
entirely absent or entirely blank; and when no usable group key remains
the function returns the empty (correctly shaped, by the result type)
table without raising. -/
theorem C9_seller_summary (rows : List AnnRow) :
    (∀ o ∈ build_seller_outlier_summary rows,
        stripStr o.seller ≠ "" ∧
        o.total_count =
          (summaryGroup (usableRows rows) (sellerUsable rows) o.seller).length ∧
        o.outlier_count =
          ((summaryGroup (usableRows rows) (sellerUsable rows) o.seller).filter
            (fun a => a.outlier_flag)).length ∧
        o.outlier_rate = round2 ((o.outlier_count : ℚ) / (o.total_count : ℚ) * 100) ∧
        o.mean_deviation_pct = round2
          (((summaryGroup (usableRows rows) (sellerUsable rows) o.seller).map
            (fun a => a.deviation_pct)).sum / (o.total_count : ℚ))) ∧
    List.Sorted (fun x y : ℚ => y ≤ x)
      ((build_seller_outlier_summary rows).map (fun o => o.outlier_rate)) ∧
    (sellerUsable rows = false →
      (∀ a ∈ rows, a.row.seller = none) ∨
      (∀ a ∈ rows, ∃ s, a.row.seller = some s ∧ stripStr s = "")) ∧
    (usableRows rows = [] → build_seller_outlier_summary rows = []) := by
  refine ⟨?_, ?_, ?_, ?_⟩
  · intro o ho
    have ho' : o ∈ (((usableRows rows).filterMap
        (fun a => summaryKey (sellerUsable rows) a)).dedup.map
        (fun k => summaryRowFor (usableRows rows) (sellerUsable rows) k)) := by
      have hperm : List.Perm (build_seller_outlier_summary rows)
          (((usableRows rows).filterMap
            (fun a => summaryKey (sellerUsable rows) a)).dedup.map
            (fun k => summaryRowFor (usableRows rows) (sellerUsable rows) k)) := by
        unfold build_seller_outlier_summary
        exact List.perm_insertionSort _ _
      exact hperm.mem_iff.mp ho
    obtain ⟨k, hk, rfl⟩ := List.mem_map.mp ho'
    refine ⟨?_, rfl, rfl, rfl, rfl⟩
    have hk2 : k ∈ (usableRows rows).filterMap
        (fun a => summaryKey (sellerUsable rows) a) := List.mem_dedup.mp hk
    obtain ⟨a, ha, hka⟩ := List.mem_filterMap.mp hk2
    have hok : keyOk (summaryKey (sellerUsable rows) a) = true := by
      have := (List.mem_filter.mp ha).2
      simpa [usableRows] using this
    rw [hka] at hok
    simpa [keyOk] using hok
  · unfold build_seller_outlier_summary
    refine List.pairwise_map.mpr ?_
    exact List.sorted_insertionSort _ _
  · intro hf
    unfold sellerUsable at hf
    rw [Bool.and_eq_false_iff] at hf
    rcases hf with hA | hB
    · left
      intro a ha
      have h1 : (a.row.seller.isSome : Bool) = false := by
        have := List.any_eq_false.mp hA a ha
        simpa using this
      exact Option.not_isSome_iff_eq_none.mp (by simp [h1])
    · right
      intro a ha
      have h1 : stripStr (renderStr a.row.seller) = "" := by
        have := List.any_eq_false.mp hB a ha
        simpa using this
      cases hsel : a.row.seller with
      | none =>
        rw [hsel] at h1
        exact absurd h1 (by decide)
      | some s =>
        refine ⟨s, rfl, ?_⟩
        rw [hsel] at h1
        simpa [renderStr] using h1
  · intro h
    unfold build_seller_outlier_summary
    rw [h]
    rfl

theorem c9_keys : ((usableRows c9rows).filterMap
    (fun a => summaryKey (sellerUsable c9rows) a)).dedup = ["A"] := by decide

theorem c9_group : summaryGroup (usableRows c9rows) (sellerUsable c9rows) "A" = c9rows := by
  decide

theorem c9_eval : build_seller_outlier_summary c9rows = [⟨"A", 2, 1, 50, 25⟩] := by
  simp only [build_seller_outlier_summary]
  rw [c9_keys]
  show [summaryRowFor (usableRows c9rows) (sellerUsable c9rows) "A"] = _
  simp only [summaryRowFor, c9_group]
  norm_num [c9rows, round2, roundHalfEven, Int.fract]

/-- Witness for C9 on a two-row single-seller population with one
outlier: rate 50%, mean deviation 25. -/
theorem C9_witness :
    stripStr "A" ≠ "" ∧
    (2 : Nat) = (summaryGroup (usableRows c9rows) (sellerUsable c9rows) "A").length ∧
    (1 : Nat) = ((summaryGroup (usableRows c9rows) (sellerUsable c9rows) "A").filter
      (fun a => a.outlier_flag)).length ∧
    (50 : ℚ) = round2 (((1 : Nat) : ℚ) / ((2 : Nat) : ℚ) * 100) ∧
    (25 : ℚ) = round2
      (((summaryGroup (usableRows c9rows) (sellerUsable c9rows) "A").map
        (fun a => a.deviation_pct)).sum / ((2 : Nat) : ℚ)) :=
  (C9_seller_summary c9rows).1 ⟨"A", 2, 1, 50, 25⟩ (by rw [c9_eval]; simp)

/-! ### Claims C1 and C2 -/

theorem renameCol_length (old tgt : String) (cols : List String) :
    (renameCol old tgt cols).length = cols.length := List.length_map _ _

theorem mapStep_length (o cols : List String) (s t : String) :
    (mapStep o cols s t).length = cols.length := by
  unfold mapStep
  cases existingColsLower o (lowerStr s) with
  | none => rfl
  | some orig =>
    by_cases h : t ∈ cols
    · simp [h]
    · simp [h, renameCol_length]

theorem foldl_mapStep_length (o : List String) (L : List (String × String))
    (cols : List String) :
    (L.foldl (fun c p => mapStep o c p.1 p.2) cols).length = cols.length := by
  induction L generalizing cols with
  | nil => rfl
  | cons p t ih => rw [List.foldl_cons, ih, mapStep_length]

theorem caseStep_length (cols : List String) (col : String) :
    (caseStep cols col).length = cols.length := by
  unfold caseStep
  cases standard_columns.find? (fun std => normName col = lowerStr std && col ≠ std) with
  | none => rfl
  | some std => exact renameCol_length _ _ _

theorem foldl_caseStep_length (L cols : List String) :
    (L.foldl caseStep cols).length = cols.length := by
  induction L generalizing cols with
  | nil => rfl
  | cons c t ih => rw [List.foldl_cons, ih, caseStep_length]

theorem normalizedCols_length (cols : List String) :
    (normalizedCols cols).length = cols.length := by
  unfold normalizedCols applyStdCase applyMapping
  rw [foldl_caseStep_length, foldl_mapStep_length]

theorem rowCells_append (l1 l2 : List (String × Cell)) (name : String) :
    rowCells (l1 ++ l2) name = rowCells l1 name ++ rowCells l2 name :=
  List.filterMap_append _ _ _

theorem colCells_append (c1 c2 : List String) (r1 r2 : List Cell)
    (h : c1.length = r1.length) (name : String) :
    colCells (c1 ++ c2) (r1 ++ r2) name = colCells c1 r1 name ++ colCells c2 r2 name := by
  unfold colCells
  rw [List.zip_append h, rowCells_append]

theorem rowCells_none (pairs : List (String × Cell)) (name : String)
    (h : ∀ p ∈ pairs, p.1 ≠ name) : rowCells pairs name = [] := by
  refine List.filterMap_eq_nil_iff.mpr (fun p hp => ?_)
  simp [h p hp]

theorem colCells_not_mem (cols : List String) (r : List Cell) (name : String)
    (h : name ∉ cols) : colCells cols r name = [] := by
  apply rowCells_none
  intro p hp he
  exact h (he ▸ (List.of_mem_zip hp).1)

theorem zip_map_const (ms : List String) (v : Cell) :
    ms.zip (ms.map (fun _ => v)) = ms.map (fun m => (m, v)) := by
  induction ms with
  | nil => rfl
  | cons a t ih => simp only [List.map_cons, List.zip_cons_cons, ih]

theorem rowCells_const (ms : List String) (v : Cell) (name : String) :
    rowCells (ms.map (fun m => (m, v))) name = List.replicate (ms.count name) v := by
  induction ms with
  | nil => rfl
  | cons a t ih =>
    by_cases h : a = name
    · simp [rowCells, List.filterMap_cons, h, List.count_cons, List.replicate_succ,
        ← ih, rowCells]
    · simp [rowCells, List.filterMap_cons, h, List.count_cons, ← ih, rowCells]

theorem zip_coerceRow (cols : List String) (r : List Cell) :
    cols.zip (coerceRow cols r) = (cols.zip r).map
      (fun p => (p.1, if p.1 = "price" then Cell.int (toNumericInt p.2) else p.2)) := by
  unfold coerceRow
  induction cols generalizing r with
  | nil => rfl
  | cons c t ih =>
    cases r with
    | nil => rfl
    | cons x xs =>
      simp only [List.zip_cons_cons, List.map_cons]
      congr 1
      exact ih xs

theorem colCells_coerceRow (cols : List String) (r : List Cell) (name : String)
    (hname : name ≠ "price") :
    colCells cols (coerceRow cols r) name = colCells cols r name := by
  unfold colCells rowCells
  rw [zip_coerceRow, List.filterMap_map]
  refine List.filterMap_congr (fun p _ => ?_)
  by_cases h : p.1 = name
  · simp [Function.comp_apply, h, hname]
  · simp [Function.comp_apply, h]

theorem colCells_coerceRow_price (cols : List String) (r : List Cell) :
    colCells cols (coerceRow cols r) "price" =
      (colCells cols r "price").map (fun v => Cell.int (toNumericInt v)) := by
  unfold colCells rowCells
  rw [zip_coerceRow, List.filterMap_map, List.map_filterMap]
  refine List.filterMap_congr (fun p _ => ?_)
  by_cases h : p.1 = "price"
  · simp [Function.comp_apply, h]
  · simp [Function.comp_apply, h]

theorem colCells_length (cols : List String) (row : List Cell)
    (h : cols.length = row.length) (name : String) :
    (colCells cols row name).length = cols.count name := by
  induction cols generalizing row with
  | nil => rfl
  | cons c t ih =>
    cases row with
    | nil => exact absurd h (by simp)
    | cons x xs =>
      have ht : t.length = xs.length := by simpa using h
      by_cases hc : c = name
      · simp [colCells, rowCells, List.filterMap_cons, hc, List.count_cons,
          ← ih xs ht, colCells, rowCells]
      · simp [colCells, rowCells, List.filterMap_cons, hc, List.count_cons,
          ← ih xs ht, colCells, rowCells]

theorem map_columns_ok {df out : DF} (h : map_columns df = Except.ok out) :
    out.cols = normalizedCols df.cols ++
      standard_columns.filter (fun s => !((normalizedCols df.cols).contains s)) ∧
    out.rows = (df.rows.map (fun r =>
      r ++ (standard_columns.filter
        (fun s => !((normalizedCols df.cols).contains s))).map (fun _ => Cell.null))).map
      (fun r => coerceRow (normalizedCols df.cols ++
        standard_columns.filter (fun s => !((normalizedCols df.cols).contains s))) r) ∧
    (normalizedCols df.cols ++
      standard_columns.filter (fun s => !((normalizedCols df.cols).contains s))).count
        "price" = 1 := by
  unfold map_columns at h
  by_cases hc : (normalizedCols df.cols ++
      standard_columns.filter (fun s => !((normalizedCols df.cols).contains s))).count
        "price" = 1
  · rw [if_pos hc] at h
    have := Except.ok.inj h
    exact ⟨(congrArg DF.cols this).symm, (congrArg DF.rows this).symm, hc⟩
  · rw [if_neg hc] at h
    exact absurd h (by simp)

/-- Claim C1 as amended: whenever `map_columns` returns a table (it
raises only when distinct source columns collide onto duplicate `price`
labels), the output contains ALL 14 standard columns — but not exactly
them: unrecognized source columns are retained — and every standard
column other than `price` that is absent from the normalized input is
null-filled in every row, while an absent `price` is filled with the
integer 0 (the coercion turns the null fill into 0), not null. -/
theorem C1_amended (df : DF) (hWF : WF df) (out : DF)
    (h : map_columns df = Except.ok out) :
    (∀ std ∈ standard_columns, std ∈ out.cols) ∧
    (∀ std ∈ standard_columns, std ∉ normalizedCols df.cols → std ≠ "price" →
        ∀ row ∈ out.rows, colCells out.cols row std = [Cell.null]) ∧
    ("price" ∉ normalizedCols df.cols →
        ∀ row ∈ out.rows, colCells out.cols row "price" = [Cell.int 0]) := by
  obtain ⟨hcols, hrows, hcount⟩ := map_columns_ok h
  have hlen : (normalizedCols df.cols).length = df.cols.length := normalizedCols_length _
  have hmissingNodup : (standard_columns.filter
      (fun s => !((normalizedCols df.cols).contains s))).Nodup :=
    List.Nodup.filter _ (by decide)
  refine ⟨?_, ?_, ?_⟩
  · intro std hstd
    rw [hcols]
    by_cases hc : std ∈ normalizedCols df.cols
    · exact List.mem_append.mpr (Or.inl hc)
    · refine List.mem_append.mpr (Or.inr ?_)
      refine List.mem_filter.mpr ⟨hstd, ?_⟩
      simp [List.contains, List.elem_iff, hc]
  · intro std hstd hnot hstdp row hrow
    rw [hrows] at hrow
    obtain ⟨r1, hr1, rfl⟩ := List.mem_map.mp hrow
    obtain ⟨r, hr, rfl⟩ := List.mem_map.mp hr1
    rw [hcols]
    rw [colCells_coerceRow _ _ _ hstdp]
    rw [colCells_append _ _ _ _ (by rw [hlen]; exact (hWF r hr).symm)]
    rw [colCells_not_mem _ _ _ hnot, List.nil_append]
    unfold colCells
    rw [zip_map_const, rowCells_const]
    rw [List.count_eq_one_of_mem hmissingNodup
      (List.mem_filter.mpr ⟨hstd, by simp [List.contains, List.elem_iff, hnot]⟩)]
    rfl
  · intro hnot row hrow
    rw [hrows] at hrow
    obtain ⟨r1, hr1, rfl⟩ := List.mem_map.mp hrow
    obtain ⟨r, hr, rfl⟩ := List.mem_map.mp hr1
    rw [hcols, colCells_coerceRow_price]
    rw [colCells_append _ _ _ _ (by rw [hlen]; exact (hWF r hr).symm)]
    rw [colCells_not_mem _ _ _ hnot, List.nil_append]
    unfold colCells
    rw [zip_map_const, rowCells_const]
    rw [List.count_eq_one_of_mem hmissingNodup
      (List.mem_filter.mpr ⟨by decide, by simp [List.contains, List.elem_iff, hnot]⟩)]
    rfl

/-- Claim C1 counterexample: the unrecognized input column `foo` survives
into the output (so the output does NOT contain exactly the 14 standard
columns), the absent standard column `price` is filled with integer 0
rather than null, and on the input columns [`lprice`, `PRICE`] the
function raises instead of returning a table (both columns end up
labelled `price` and `pd.to_numeric` receives a `DataFrame`). -/
theorem C1_counterexample :
    map_columns dfExtra = Except.ok outExtra ∧
    "foo" ∈ outExtra.cols ∧
    "foo" ∉ standard_columns ∧
    colCells outExtra.cols (outExtra.rows.getD 0 []) "price" = [Cell.int 0] ∧
    colCells outExtra.cols (outExtra.rows.getD 0 []) "price" ≠ [Cell.null] ∧
    map_columns dfDupPrice = Except.error "pd.to_numeric(DataFrame) raises TypeError" :=
  ⟨rfl, by decide, by decide, by decide, by decide, rfl⟩

/-- Witness for C1 as amended at the concrete frame `dfExtra`. -/
theorem C1_amended_witness :
    (∀ std ∈ standard_columns, std ∈ outExtra.cols) ∧
    (∀ std ∈ standard_columns, std ∉ normalizedCols dfExtra.cols → std ≠ "price" →
        ∀ row ∈ outExtra.rows, colCells outExtra.cols row std = [Cell.null]) ∧
    ("price" ∉ normalizedCols dfExtra.cols →
        ∀ row ∈ outExtra.rows, colCells outExtra.cols row "price" = [Cell.int 0]) :=
  C1_amended dfExtra (by decide) outExtra rfl

/-- Claim C2 as amended: whenever `map_columns` returns a table, every
row has exactly one `price` cell and it is an integer; the coercion sends
missing values and the non-numeric strings of the claim to exactly 0.
Negative numeric inputs are preserved, so non-negativity does NOT hold,
and on duplicate `price` labels the coercion raises. -/
theorem C2_amended (df : DF) (hWF : WF df) (out : DF)
    (h : map_columns df = Except.ok out) :
    (∀ row ∈ out.rows, (colCells out.cols row "price").length = 1 ∧
        ∀ v ∈ colCells out.cols row "price", ∃ n : Int, v = Cell.int n) ∧
    toNumericInt Cell.null = 0 ∧
    toNumericInt (Cell.str "") = 0 ∧
    toNumericInt (Cell.str "abc") = 0 := by
  obtain ⟨hcols, hrows, hcount⟩ := map_columns_ok h
  have hlen : (normalizedCols df.cols).length = df.cols.length := normalizedCols_length _
  refine ⟨?_, rfl, rfl, rfl⟩
  intro row hrow
  rw [hrows] at hrow
  obtain ⟨r1, hr1, rfl⟩ := List.mem_map.mp hrow
  obtain ⟨r, hr, rfl⟩ := List.mem_map.mp hr1
  rw [hcols, colCells_coerceRow_price]
  constructor
  · rw [List.length_map, colCells_length]
    · exact hcount
    · simp [List.length_append, List.length_map, hlen, hWF r hr]
  · intro v hv
    obtain ⟨w, _, rfl⟩ := List.mem_map.mp hv
    exact ⟨toNumericInt w, rfl⟩

/-- Claim C2 counterexample: input price -5 is passed through as the
negative integer -5 (no clamping), and on the input columns
[`lprice`, `PRICE`] the coercion raises a `TypeError` instead of never
raising. -/
theorem C2_counterexample :
    map_columns dfNegPrice = Except.ok outNegPrice ∧
    colCells outNegPrice.cols (outNegPrice.rows.getD 0 []) "price" = [Cell.int (-5)] ∧
    ¬(0 ≤ (-5 : Int)) ∧
    map_columns dfDupPrice = Except.error "pd.to_numeric(DataFrame) raises TypeError" :=
  ⟨rfl, by decide, by decide, rfl⟩

/-- Witness for C2 as amended at the concrete frame `dfNegPrice`. -/
theorem C2_amended_witness :
    (∀ row ∈ outNegPrice.rows, (colCells outNegPrice.cols row "price").length = 1 ∧
        ∀ v ∈ colCells outNegPrice.cols row "price", ∃ n : Int, v = Cell.int n) ∧
    toNumericInt Cell.null = 0 ∧
    toNumericInt (Cell.str "") = 0 ∧
    toNumericInt (Cell.str "abc") = 0 :=
  C2_amended dfNegPrice (by decide) outNegPrice rfl
